import Mathlib

/-!
Verification of the court transcription system's audio pipeline.

Shallow embedding of the Python sources:
  - `transcription_service.py` (pipeline orchestration and segment fusion),
  - `diarization_service.py` (speaker-role mapping and fallback diarization),
  - `noise_suppression.py` (noise-suppression error policy),
  - `storage_service.py` (hash-checked retrieval and segment editing).

Modelling conventions:
  - Python floats become `Rat` (every constant appearing in the claims is
    exactly representable);
  - fresh UUIDs (`str(uuid.uuid4())`) become an injected stream
    `ids : Nat -> String` indexed by position;
  - calls into external libraries (whisper, pyannote, librosa, sqlite) become
    function-valued parameters whose results are `Except String _` so that a
    raised exception is an `error` value;
  - logging, timing and timestamps are elided: they do not affect any
    data-flow the claims speak about.
-/

namespace CourtTranscription

/-- A segment produced by Whisper (`result["segments"]` in
`process_audio`): `start`, `end`, `text`, and an optional `confidence`
(the Python dict may lack the key, hence `Option`).  `end` is a Lean
keyword, so the field is named `stop`. -/
structure TranscribedSegment where
  start : Rat
  stop : Rat
  text : String
  confidence : Option Rat
deriving Repr, DecidableEq

/-- A diarization turn (`{"start": ..., "end": ..., "speaker": ...}`
as built in `DiarizationService.diarize` / `_generate_mock_segments`). -/
structure DiarizationTurn where
  start : Rat
  stop : Rat
  speaker : String
deriving Repr, DecidableEq

/-- A fused segment as appended by
`_combine_transcription_with_speakers`: fresh id, best-overlap speaker,
and the transcribed segment's text, times and coerced confidence. -/
structure FusedSegment where
  id : String
  speaker : String
  text : String
  start_time : Rat
  end_time : Rat
  confidence : Rat
deriving Repr, DecidableEq

/-- `overlap = max(0, min(segment_end, spk_end) - max(segment_start, spk_start))`
(lines 152-154 of `transcription_service.py`), expressed on raw endpoints. -/
def overlapAmount (s e : Rat) (d : DiarizationTurn) : Rat :=
  max 0 (min e d.stop - max s d.start)

/-- The overlap of a transcribed segment with a diarization turn. -/
def overlap (s : TranscribedSegment) (d : DiarizationTurn) : Rat :=
  overlapAmount s.start s.stop d

/-- The inner loop of `_combine_transcription_with_speakers`: runs over the
speaker segments carrying the accumulator `(best_speaker, max_overlap)` and
replaces it only on `overlap > max_overlap` (strict). -/
def findBestAux (s : TranscribedSegment) :
    List DiarizationTurn → String × Rat → String × Rat
  | [], acc => acc
  | d :: ds, acc =>
      if overlap s d > acc.2 then findBestAux s ds (d.speaker, overlap s d)
      else findBestAux s ds acc

/-- Best speaker for one transcribed segment, starting from
`best_speaker = "Unknown"`, `max_overlap = 0`. -/
def findBestSpeaker (s : TranscribedSegment) (turns : List DiarizationTurn) :
    String × Rat :=
  findBestAux s turns ("Unknown", 0)

/-- One iteration of the outer loop: the fused segment appended for
transcribed segment `s`, with `ident` the fresh UUID drawn for it.
`confidence` is `float(segment.get("confidence", 0.0))`. -/
def fuseOne (ident : String) (turns : List DiarizationTurn)
    (s : TranscribedSegment) : FusedSegment :=
  { id := ident
    speaker := (findBestSpeaker s turns).1
    text := s.text
    start_time := s.start
    end_time := s.stop
    confidence := s.confidence.getD 0 }

/-- Recursion over the transcribed segments; `i` counts how many UUIDs have
already been drawn from the stream `ids`. -/
def combineAux (ids : Nat → String) (turns : List DiarizationTurn) :
    Nat → List TranscribedSegment → List FusedSegment
  | _, [] => []
  | i, s :: rest => fuseOne (ids i) turns s :: combineAux ids turns (i + 1) rest

/-- `_combine_transcription_with_speakers` (lines 126-170 of
`transcription_service.py`): one fused segment per transcribed segment, in
input order. -/
def combine_transcription_with_speakers (ids : Nat → String)
    (transcribed : List TranscribedSegment) (turns : List DiarizationTurn) :
    List FusedSegment :=
  combineAux ids turns 0 transcribed

/-- Helper for Python `str.split` with a one-character separator: cut the
character list at every occurrence of `sep`, keeping empty pieces, so that
a list with no separator yields one piece and the empty list yields
`[[]]` — exactly CPython's behaviour for a non-empty separator. -/
def splitCharsAux (sep : Char) : List Char → List Char → List (List Char)
  | [], acc => [acc.reverse]
  | c :: cs, acc =>
      if c = sep then acc.reverse :: splitCharsAux sep cs []
      else splitCharsAux sep cs (c :: acc)

/-- Python `s.split(sep)` for a single-character separator, as used by
`speaker.split("_")`. -/
def pySplit (sep : Char) (s : String) : List String :=
  (splitCharsAux sep s.data []).map String.mk

/-- `speaker_id = speaker.split("_")[-1]` (line 103 of
`diarization_service.py`).  `split` always returns a non-empty list, so
Python's `[-1]` is `getLastD` (the default is never used). -/
def speaker_id_of (speaker : String) : String :=
  (pySplit '_' speaker).getLastD speaker

/-- `_map_speaker_to_role` (lines 88-113 of `diarization_service.py`):
an equality chain on the last underscore-delimited component `"0"`,
`"1"`, `"2"`, with `f"Speaker {speaker_id}"` otherwise. -/
def map_speaker_to_role (speaker : String) : String :=
  let speaker_id := speaker_id_of speaker
  if speaker_id = "0" then "Judge"
  else if speaker_id = "1" then "Advocate (Plaintiff)"
  else if speaker_id = "2" then "Advocate (Defense)"
  else "Speaker " ++ speaker_id

/-- The role rotation of `_generate_mock_segments`. -/
def speaker_roles : List String :=
  ["Judge", "Advocate (Plaintiff)", "Advocate (Defense)", "Witness"]

/-- `num_segments = int(duration / segment_length)` with
`segment_length = 10.0`.  Python `int()` truncates toward zero; after
`Int.toNat` (negative counts give an empty `range` either way) this agrees
with `Int.floor` on every rational, so `⌊·⌋.toNat` is used. -/
def num_mock_segments (duration : Rat) : Nat :=
  (⌊duration / 10⌋).toNat

/-- The three hardcoded turns returned when computing the duration raises
(lines 158-162 of `diarization_service.py`). -/
def fallback_turns : List DiarizationTurn :=
  [⟨0, 30, "Judge"⟩, ⟨30, 60, "Advocate (Plaintiff)"⟩,
   ⟨60, 90, "Advocate (Defense)"⟩]

/-- `_generate_mock_segments` (lines 115-162 of `diarization_service.py`),
as a function of the duration `librosa` reports: `none` models the branch
where loading the audio (and hence the duration) raises.  Window `i` spans
`[i*10, min((i+1)*10, duration)]` and gets `speaker_roles[i % 4]`
(`i % 4 < 4`, so the Python index never errors; `getD` with default `""`
is exact on every reachable index). -/
def generate_mock_segments (duration : Option Rat) : List DiarizationTurn :=
  match duration with
  | none => fallback_turns
  | some dur =>
      (List.range (num_mock_segments dur)).map fun (i : Nat) =>
        { start := (i : Rat) * 10
          stop := min (((i : Rat) + 1) * 10) dur
          speaker := speaker_roles.getD (i % 4) "" }

/-- `NoiseSuppression.process` (lines 27-63 of `noise_suppression.py`).
`libsAvailable` is the import-time flag `AUDIO_LIBS_AVAILABLE`; `filter`
bundles the load / spectral-subtraction / write steps of the `try` body,
with `error` modelling any exception raised inside it.  The function's
return type has no error case: every failure path returns the original
`audio_file` argument. -/
def noise_process (libsAvailable : Bool) (audio : String)
    (filter : String → Except String String) : String :=
  if !libsAvailable then audio
  else
    match filter audio with
    | .ok cleaned => cleaned
    | .error _ => audio

/-- The transcript record assembled by `process_audio`.  `metadata` (wall
clock timestamps, processing time, model and device names, speaker count,
case id) is kept as one opaque string: none of its fields feed back into the
pipeline. -/
structure Transcript where
  id : String
  segments : List FusedSegment
  metadata : String
  case_details : Option String
  status : String
deriving Repr, DecidableEq

/-- `clean_audio_file` after the first `try` of `process_audio`
(lines 61-67 of `transcription_service.py`): a noise-suppression exception
is absorbed and the original file is used. -/
def cleanedAudio (noise : String → Except String String) (audio : String) :
    String :=
  match noise audio with
  | .ok c => c
  | .error _ => audio

/-- `speaker_segments` after the second `try` (lines 71-77): a diarization
exception is absorbed and the empty list is used. -/
def diarizedTurns (diarize : String → Except String (List DiarizationTurn))
    (clean : String) : List DiarizationTurn :=
  match diarize clean with
  | .ok s => s
  | .error _ => []

/-- `process_audio` (lines 46-124 of `transcription_service.py`).  The four
stage calls are parameters; `tid` is the generated transcript UUID, `ids`
the UUID stream for fused segments, `metadata` the assembled metadata blob
and `caseDetails` the result of `_get_case_details` when a case id was
given.  The storage call's result — success, `False`, or a raised
exception — is discarded (lines 117-122); only a transcription failure
propagates, re-raised as `"Speech recognition failed: ..."` (line 87). -/
def process_audio (noise : String → Except String String)
    (diarize : String → Except String (List DiarizationTurn))
    (transcribe : String → Except String (List TranscribedSegment))
    (store : Transcript → Except String Bool)
    (audio tid metadata : String) (caseDetails : Option String)
    (ids : Nat → String) : Except String Transcript :=
  let clean := cleanedAudio noise audio
  let speaker_segments := diarizedTurns diarize clean
  match transcribe clean with
  | .error e => .error ("Speech recognition failed: " ++ e)
  | .ok segs =>
      let transcript : Transcript :=
        { id := tid
          segments := combine_transcription_with_speakers ids segs speaker_segments
          metadata := metadata
          case_details := caseDetails
          status := "success" }
      let _ := store transcript
      .ok transcript

/-- One row of the `transcripts` table as `store_transcript` writes it:
the transcript id, the stored payload and the hash column.  `json.dumps` is
deterministic on a fixed dict, so hashing the serialized payload is modelled
by a hash function on `Transcript` itself, passed as a parameter `hashFn`
(SHA-256 of the serialization in the source).  The `created_at`,
`updated_at` and `case_id` columns and the audit log feed no claim and are
elided. -/
structure DBRow where
  id : String
  data : Transcript
  hash : String
deriving Repr, DecidableEq

/-- `get_transcript` (lines 124-162 of `storage_service.py`): find the row
by id (`id` is the primary key, so `find?` matches the unique row), recompute
the content hash, return `none` on mismatch exactly as on a missing row,
otherwise the parsed payload. -/
def get_transcript (hashFn : Transcript → String) (db : List DBRow)
    (tid : String) : Option Transcript :=
  match db.find? (fun r => r.id == tid) with
  | none => none
  | some r => if hashFn r.data == r.hash then some r.data else none

/-- The `for segment in transcript["segments"]` loop of
`update_transcript_segment` (lines 187-192): set `text` on the first
segment whose id matches and stop; the flag is `segment_updated`. -/
def update_segment_text (sid newText : String) :
    List FusedSegment → List FusedSegment × Bool
  | [] => ([], false)
  | s :: rest =>
      if s.id == sid then ({ s with text := newText } :: rest, true)
      else
        let p := update_segment_text sid newText rest
        (s :: p.1, p.2)

/-- `update_transcript_segment` (lines 164-245 of `storage_service.py`):
read through `get_transcript`, return `False` leaving the table untouched
when the transcript or the segment is not found, otherwise write the
re-serialized transcript and its fresh hash back with
`UPDATE transcripts SET data = ?, hash = ? WHERE id = ?` and return `True`.
The result pairs the table after the call with the returned status. -/
def update_transcript_segment (hashFn : Transcript → String)
    (db : List DBRow) (tid sid newText : String) : List DBRow × Bool :=
  match get_transcript hashFn db tid with
  | none => (db, false)
  | some t =>
      let p := update_segment_text sid newText t.segments
      if p.2 = false then (db, false)
      else
        let updated : Transcript := { t with segments := p.1 }
        (db.map fun r =>
          if r.id == tid then { r with data := updated, hash := hashFn updated }
          else r, true)

/-! ## Helper lemmas about the fusion loop -/

theorem combineAux_length (ids : Nat → String) (turns : List DiarizationTurn) :
    ∀ (n : Nat) (l : List TranscribedSegment),
      (combineAux ids turns n l).length = l.length := by
  intro n l
  induction l generalizing n with
  | nil => rfl
  | cons s rest ih => simp [combineAux, ih]

theorem combineAux_get? (ids : Nat → String) (turns : List DiarizationTurn) :
    ∀ (n i : Nat) (l : List TranscribedSegment),
      (combineAux ids turns n l).get? i =
        (l.get? i).map (fun s => fuseOne (ids (n + i)) turns s) := by
  intro n i l
  induction l generalizing n i with
  | nil => simp [combineAux]
  | cons s rest ih =>
      cases i with
      | zero => simp [combineAux]
      | succ j =>
          have harith : n + 1 + j = n + (j + 1) := by omega
          simpa [combineAux, harith] using ih (n + 1) j

theorem mem_combineAux (ids : Nat → String) (turns : List DiarizationTurn) :
    ∀ (n : Nat) (l : List TranscribedSegment) (f : FusedSegment),
      f ∈ combineAux ids turns n l →
        ∃ i, ∃ s ∈ l, f = fuseOne (ids i) turns s := by
  intro n l
  induction l generalizing n with
  | nil => intro f hf; simp [combineAux] at hf
  | cons s rest ih =>
      intro f hf
      rcases List.mem_cons.mp hf with h | h
      · exact ⟨n, s, List.mem_cons_self s rest, h⟩
      · obtain ⟨i, t, ht, hft⟩ := ih (n + 1) f h
        exact ⟨i, t, List.mem_cons_of_mem s ht, hft⟩

theorem findBestAux_unchanged_or_exceeds (s : TranscribedSegment) :
    ∀ (ds : List DiarizationTurn) (acc : String × Rat),
      findBestAux s ds acc = acc ∨ ∃ d ∈ ds, acc.2 < overlap s d := by
  intro ds
  induction ds with
  | nil => intro acc; exact Or.inl rfl
  | cons d ds ih =>
      intro acc
      by_cases h : overlap s d > acc.2
      · exact Or.inr ⟨d, List.mem_cons_self d ds, h⟩
      · rcases ih acc with h' | ⟨d', hd', hlt⟩
        · left; simpa [findBestAux, h] using h'
        · exact Or.inr ⟨d', List.mem_cons_of_mem d hd', hlt⟩

theorem findBestAux_append (s : TranscribedSegment) :
    ∀ (ds : List DiarizationTurn) (d : DiarizationTurn) (acc : String × Rat),
      findBestAux s (ds ++ [d]) acc =
        if (findBestAux s ds acc).2 < overlap s d then (d.speaker, overlap s d)
        else findBestAux s ds acc := by
  intro ds
  induction ds with
  | nil => intro d acc; simp [findBestAux]
  | cons d' ds ih =>
      intro d acc
      by_cases h : overlap s d' > acc.2
      · simp [findBestAux, h, ih]
      · simp [findBestAux, h, ih]

/-! ## Claim theorems about segment fusion -/

/-- C1.  Fusion returns exactly one `FusedSegment` per input
`TranscribedSegment`, in input order: the output has the same length and
the i-th output carries the i-th input's text, start, end and confidence
(confidence defaulted to 0 when absent). -/
theorem fuse_one_output_per_input_in_order (ids : Nat → String)
    (transcribed : List TranscribedSegment) (turns : List DiarizationTurn) :
    (combine_transcription_with_speakers ids transcribed turns).length =
        transcribed.length ∧
    ∀ i : Nat,
      ((combine_transcription_with_speakers ids transcribed turns).get? i).map
          (fun f => (f.text, f.start_time, f.end_time, f.confidence)) =
        (transcribed.get? i).map
          (fun s => (s.text, s.start, s.stop, s.confidence.getD 0)) := by
  constructor
  · exact combineAux_length ids turns 0 transcribed
  · intro i
    rw [combine_transcription_with_speakers, combineAux_get? ids turns 0 i]
    cases transcribed.get? i with
    | none => rfl
    | some s => simp [fuseOne]

/-- C2.  A later diarization turn replaces the running best speaker only
when its overlap strictly exceeds the running maximum (which starts at 0),
so the first turn attaining a given overlap wins ties; concretely, for the
transcribed segment [10,20] and the turns (0,15,"Judge"), (15,25,"Clerk")
in that order both overlaps are 5 and the fused speaker is "Judge". -/
theorem fusion_tie_first_turn_wins :
    (∀ (s : TranscribedSegment) (ds : List DiarizationTurn) (d : DiarizationTurn),
        findBestSpeaker s (ds ++ [d]) =
          if (findBestSpeaker s ds).2 < overlap s d then (d.speaker, overlap s d)
          else findBestSpeaker s ds) ∧
    overlap ⟨10, 20, "t", none⟩ ⟨0, 15, "Judge"⟩ = 5 ∧
    overlap ⟨10, 20, "t", none⟩ ⟨15, 25, "Clerk"⟩ = 5 ∧
    (findBestSpeaker ⟨10, 20, "t", none⟩ [⟨0, 15, "Judge"⟩, ⟨15, 25, "Clerk"⟩]).1 =
      "Judge" := by
  refine ⟨fun s ds d => findBestAux_append s ds d ("Unknown", 0), ?_, ?_, ?_⟩
  · simp [overlap, overlapAmount, min_def, max_def]
    norm_num
  · simp [overlap, overlapAmount, min_def, max_def]
    norm_num
  · simp [findBestSpeaker, findBestAux, overlap, overlapAmount, min_def, max_def]
    norm_num

/-- C5.  With an empty diarization-turn list every fused segment keeps the
sentinel speaker "Unknown". -/
theorem fuse_empty_turns_speaker_unknown (ids : Nat → String)
    (transcribed : List TranscribedSegment) (f : FusedSegment)
    (hf : f ∈ combine_transcription_with_speakers ids transcribed []) :
    f.speaker = "Unknown" := by
  obtain ⟨i, s, _, rfl⟩ := mem_combineAux ids [] 0 transcribed f hf
  rfl

/-- Witness for C5 at a concrete one-segment input. -/
theorem fuse_empty_turns_speaker_unknown_witness :
    (fuseOne "u0" [] ⟨0, 1, "hello", none⟩).speaker = "Unknown" :=
  fuse_empty_turns_speaker_unknown (fun _ => "u0") [⟨0, 1, "hello", none⟩]
    (fuseOne "u0" [] ⟨0, 1, "hello", none⟩)
    (by simp [combine_transcription_with_speakers, combineAux])

theorem generate_mock_segments_get? (dur : Rat) (i : Nat)
    (h : i < num_mock_segments dur) :
    (generate_mock_segments (some dur)).get? i =
      some ⟨(i : Rat) * 10, min (((i : Rat) + 1) * 10) dur,
            speaker_roles.getD (i % 4) ""⟩ := by
  simp [generate_mock_segments, List.getElem?_map, List.getElem?_range, h]

/-- C4.  Fallback diarization cuts the reported duration into 10-second
windows, window `i` getting role `i % 4` of the rotation
[Judge, Advocate (Plaintiff), Advocate (Defense), Witness]; a 95-second
input yields exactly 9 turns, the first being "Judge"; and when the
duration cannot be determined the three fixed hardcoded turns spanning
0-90 seconds over the first three roles are returned. -/
theorem generate_mock_segments_windows :
    generate_mock_segments none =
      [⟨0, 30, "Judge"⟩, ⟨30, 60, "Advocate (Plaintiff)"⟩,
       ⟨60, 90, "Advocate (Defense)"⟩] ∧
    (∀ (dur : Rat) (i : Nat), i < num_mock_segments dur →
        (generate_mock_segments (some dur)).get? i =
          some ⟨(i : Rat) * 10, min (((i : Rat) + 1) * 10) dur,
                speaker_roles.getD (i % 4) ""⟩) ∧
    (generate_mock_segments (some 95)).length = 9 ∧
    ((generate_mock_segments (some 95)).get? 0).map (fun d => d.speaker) =
      some "Judge" := by
  have h95 : num_mock_segments 95 = 9 := by
    simp [num_mock_segments]
    norm_num
    decide
  refine ⟨rfl, fun dur i h => generate_mock_segments_get? dur i h, ?_, ?_⟩
  · simp [generate_mock_segments, h95]
  · rw [generate_mock_segments_get? 95 0 (by rw [h95]; norm_num)]
    rfl

/-- Witness for C4's windowing clause at duration 95 and window 4
(window 4 spans [40,50] and the rotation is back at "Judge"). -/
theorem generate_mock_segments_windows_witness :
    (generate_mock_segments (some 95)).get? 4 =
      some ⟨40, 50, "Judge"⟩ := by
  have h := generate_mock_segments_windows.2.1 95 4
    (by simp [num_mock_segments]; norm_num)
  rw [h]
  norm_num [speaker_roles, min_def]

/-- C10.  A fused segment's speaker differs from "Unknown" only when some
diarization turn overlaps the segment's time span by a strictly positive
amount: turns touching only at a boundary (overlap 0) or disjoint from the
segment can never be assigned, because only `overlap > 0` (the initial
maximum) updates the best speaker. -/
theorem fused_speaker_requires_positive_overlap (ids : Nat → String)
    (transcribed : List TranscribedSegment) (turns : List DiarizationTurn)
    (f : FusedSegment)
    (hf : f ∈ combine_transcription_with_speakers ids transcribed turns)
    (hs : f.speaker ≠ "Unknown") :
    ∃ d ∈ turns, 0 < overlapAmount f.start_time f.end_time d := by
  obtain ⟨i, s, _, rfl⟩ := mem_combineAux ids turns 0 transcribed f hf
  rcases findBestAux_unchanged_or_exceeds s turns ("Unknown", 0) with h | ⟨d, hd, hlt⟩
  · exact absurd (congrArg Prod.fst h) hs
  · exact ⟨d, hd, hlt⟩

/-- C3, counterexample.  The identifier "SPEAKER_10" ends in the character
'0', yet the role mapping sends it to "Speaker 10", not "Judge": the code
compares the whole last underscore-delimited component ("10") for equality
with "0", it does not test a suffix. -/
theorem map_speaker_role_suffix_counterexample :
    "SPEAKER_10".data.getLastD ' ' = '0' ∧
    map_speaker_to_role "SPEAKER_10" = "Speaker 10" ∧
    map_speaker_to_role "SPEAKER_10" ≠ "Judge" := by
  refine ⟨by decide, by decide, by decide⟩

/-- C3, amended.  The mapping looks at the last underscore-delimited
component of the raw identifier: component "0" gives "Judge", "1" gives
"Advocate (Plaintiff)", "2" gives "Advocate (Defense)", and any other
component `c` gives "Speaker c". -/
theorem map_speaker_role_by_last_component (s : String) :
    (speaker_id_of s = "0" → map_speaker_to_role s = "Judge") ∧
    (speaker_id_of s = "1" → map_speaker_to_role s = "Advocate (Plaintiff)") ∧
    (speaker_id_of s = "2" → map_speaker_to_role s = "Advocate (Defense)") ∧
    (speaker_id_of s ≠ "0" → speaker_id_of s ≠ "1" → speaker_id_of s ≠ "2" →
      map_speaker_to_role s = "Speaker " ++ speaker_id_of s) := by
  refine ⟨fun h => ?_, fun h => ?_, fun h => ?_, fun h0 h1 h2 => ?_⟩
  · simp [map_speaker_to_role, h]
  · simp [map_speaker_to_role, h]
  · simp [map_speaker_to_role, h]
  · simp [map_speaker_to_role, h0, h1, h2]

/-- Witness for the amended C3 at concrete identifiers of each kind. -/
theorem map_speaker_role_by_last_component_witness :
    map_speaker_to_role "SPEAKER_1" = "Advocate (Plaintiff)" ∧
    map_speaker_to_role "SPEAKER_00" = "Speaker 00" :=
  ⟨(map_speaker_role_by_last_component "SPEAKER_1").2.1 (by decide),
   (map_speaker_role_by_last_component "SPEAKER_00").2.2.2 (by decide) (by decide)
     (by decide)⟩

/-- Witness for C10: a turn `[2,8]` overlapping the segment `[0,10]` by 6
seconds makes the fused speaker "Judge", and indeed some turn overlaps the
fused segment's span positively. -/
theorem fused_speaker_requires_positive_overlap_witness :
    ∃ d ∈ [(⟨2, 8, "Judge"⟩ : DiarizationTurn)],
      0 < overlapAmount (⟨"u0", "Judge", "t", 0, 10, 0⟩ : FusedSegment).start_time
          (⟨"u0", "Judge", "t", 0, 10, 0⟩ : FusedSegment).end_time d :=
  fused_speaker_requires_positive_overlap (fun _ => "u0") [⟨0, 10, "t", none⟩]
    [⟨2, 8, "Judge"⟩] ⟨"u0", "Judge", "t", 0, 10, 0⟩
    (by simp [combine_transcription_with_speakers, combineAux, fuseOne, findBestSpeaker,
          findBestAux, overlap, overlapAmount, min_def, max_def]
        norm_num)
    (by decide)

/-! ## Claim theorems about the orchestrator and noise suppression -/

/-- C7.  `NoiseSuppression.process` never fails: with the audio libraries
unavailable it returns the input unchanged, on any exception inside the
filtering body it returns the input unchanged, and in every case the result
is either the untouched input or a successful filter output. -/
theorem noise_process_never_fails (avail : Bool) (audio : String)
    (filter : String → Except String String) :
    noise_process false audio filter = audio ∧
    (∀ e, filter audio = .error e → noise_process avail audio filter = audio) ∧
    (noise_process avail audio filter = audio ∨
      ∃ c, filter audio = .ok c ∧ noise_process avail audio filter = c) := by
  refine ⟨rfl, ?_, ?_⟩
  · intro e he
    cases avail with
    | false => rfl
    | true => simp [noise_process, he]
  · cases avail with
    | false => exact Or.inl rfl
    | true =>
        cases hf : filter audio with
        | error e => exact Or.inl (by simp [noise_process, hf])
        | ok c => exact Or.inr ⟨c, rfl, by simp [noise_process, hf]⟩

/-- Witness for C7: a filter that raises leaves the original file in place. -/
theorem noise_process_never_fails_witness :
    noise_process true "court.wav" (fun _ => .error "librosa failed") =
      "court.wav" :=
  (noise_process_never_fails true "court.wav"
    (fun _ => .error "librosa failed")).2.1 "librosa failed" rfl

/-- C6.  `process_audio` raises only when transcription fails: the result is
independent of the storage call's outcome, a noise-suppression failure is
absorbed by falling back to the original audio, a diarization failure is
absorbed by falling back to the empty turn list, a transcription failure is
re-raised, and on transcription success the fully assembled transcript is
returned. -/
theorem process_audio_failure_policy (noise : String → Except String String)
    (diarize : String → Except String (List DiarizationTurn))
    (transcribe : String → Except String (List TranscribedSegment))
    (store store' : Transcript → Except String Bool)
    (audio tid metadata : String) (caseDetails : Option String)
    (ids : Nat → String) :
    (process_audio noise diarize transcribe store audio tid metadata caseDetails ids =
      process_audio noise diarize transcribe store' audio tid metadata caseDetails ids) ∧
    (∀ e, process_audio (fun _ => .error e) diarize transcribe store audio tid
            metadata caseDetails ids =
          process_audio (fun _ => .ok audio) diarize transcribe store audio tid
            metadata caseDetails ids) ∧
    (∀ e, process_audio noise (fun _ => .error e) transcribe store audio tid
            metadata caseDetails ids =
          process_audio noise (fun _ => .ok []) transcribe store audio tid
            metadata caseDetails ids) ∧
    (∀ e, transcribe (cleanedAudio noise audio) = .error e →
        process_audio noise diarize transcribe store audio tid metadata
            caseDetails ids =
          .error ("Speech recognition failed: " ++ e)) ∧
    (∀ segs, transcribe (cleanedAudio noise audio) = .ok segs →
        process_audio noise diarize transcribe store audio tid metadata
            caseDetails ids =
          .ok { id := tid
                segments := combine_transcription_with_speakers ids segs
                  (diarizedTurns diarize (cleanedAudio noise audio))
                metadata := metadata
                case_details := caseDetails
                status := "success" }) := by
  refine ⟨?_, fun e => ?_, fun e => ?_, fun e he => ?_, fun segs hs => ?_⟩
  · simp only [process_audio]
  · rfl
  · rfl
  · simp [process_audio, he]
  · simp [process_audio, hs]

/-- Witness for C6 with every stage concrete: noise suppression and storage
raise, diarization succeeds with no turns, transcription succeeds with one
segment; the transcript is still returned. -/
theorem process_audio_failure_policy_witness :
    process_audio (fun _ => .error "scipy")
      (fun _ => .ok [])
      (fun _ => .ok [⟨0, 2, "all rise", some 1⟩])
      (fun _ => .error "sqlite") "court.wav" "tid-1" "meta" none
      (fun _ => "seg-uuid") =
      .ok { id := "tid-1"
            segments := combine_transcription_with_speakers (fun _ => "seg-uuid")
              [⟨0, 2, "all rise", some 1⟩]
              (diarizedTurns (fun _ => .ok [])
                (cleanedAudio (fun _ => .error "scipy") "court.wav"))
            metadata := "meta"
            case_details := none
            status := "success" } :=
  (process_audio_failure_policy (fun _ => .error "scipy") (fun _ => .ok [])
      (fun _ => .ok [⟨0, 2, "all rise", some 1⟩]) (fun _ => .error "sqlite")
      (fun _ => .error "sqlite") "court.wav" "tid-1" "meta" none
      (fun _ => "seg-uuid")).2.2.2.2 [⟨0, 2, "all rise", some 1⟩] rfl

/-! ## Storage layer: helper lemmas -/

theorem update_segment_text_not_found (sid newText : String) :
    ∀ segs : List FusedSegment, (∀ s ∈ segs, s.id ≠ sid) →
      update_segment_text sid newText segs = (segs, false) := by
  intro segs h
  induction segs with
  | nil => rfl
  | cons s rest ih =>
      have hs : (s.id == sid) = false := by
        simpa using h s (List.mem_cons_self s rest)
      simp [update_segment_text, hs,
        ih fun x hx => h x (List.mem_cons_of_mem s hx)]

theorem update_segment_text_first_match (sid newText : String) :
    ∀ (pre : List FusedSegment) (s : FusedSegment) (post : List FusedSegment),
      (∀ x ∈ pre, x.id ≠ sid) → s.id = sid →
      update_segment_text sid newText (pre ++ s :: post) =
        (pre ++ { s with text := newText } :: post, true) := by
  intro pre
  induction pre with
  | nil =>
      intro s post _ hs
      simp [update_segment_text, hs]
  | cons x pre ih =>
      intro s post hpre hs
      have hx : (x.id == sid) = false := by
        simpa using hpre x (List.mem_cons_self x pre)
      simp [update_segment_text, hx,
        ih s post (fun y hy => hpre y (List.mem_cons_of_mem x hy)) hs]

/-! ## Claim theorems about the storage layer -/

/-- C8.  Retrieval is fail-closed: a missing row gives `none`, and a row
whose recomputed content hash differs from the stored hash gives `none` as
well — a hash mismatch is indistinguishable from not-found and corrupted
data is never surfaced. -/
theorem get_transcript_fail_closed (hashFn : Transcript → String)
    (db : List DBRow) (tid : String) :
    (db.find? (fun r => r.id == tid) = none →
      get_transcript hashFn db tid = none) ∧
    (∀ r, db.find? (fun r => r.id == tid) = some r → hashFn r.data ≠ r.hash →
      get_transcript hashFn db tid = none) := by
  refine ⟨fun h => ?_, fun r hr hne => ?_⟩
  · simp [get_transcript, h]
  · simp [get_transcript, hr, hne]

/-- Witness for C8: a stored row whose hash column does not match the
recomputed hash reads back as `none`. -/
theorem get_transcript_fail_closed_witness :
    get_transcript (fun _ => "goodhash")
      [⟨"t1", ⟨"t1", [], "m", none, "success"⟩, "badhash"⟩] "t1" = none :=
  (get_transcript_fail_closed (fun _ => "goodhash")
      [⟨"t1", ⟨"t1", [], "m", none, "success"⟩, "badhash"⟩] "t1").2
    ⟨"t1", ⟨"t1", [], "m", none, "success"⟩, "badhash"⟩ rfl (by decide)

/-- C9.  `update_transcript_segment` returns not-found with the table
untouched when the transcript cannot be read or no segment has the given
id; when the first matching segment exists, only that segment's `text`
changes — its other fields, all other segments, the rest of the transcript
and every other row are unchanged — and the call reports success. -/
theorem update_transcript_segment_frame (hashFn : Transcript → String)
    (db : List DBRow) (tid sid newText : String) :
    (db.find? (fun r => r.id == tid) = none →
      update_transcript_segment hashFn db tid sid newText = (db, false)) ∧
    (get_transcript hashFn db tid = none →
      update_transcript_segment hashFn db tid sid newText = (db, false)) ∧
    (∀ t, get_transcript hashFn db tid = some t →
      ((∀ s ∈ t.segments, s.id ≠ sid) →
        update_transcript_segment hashFn db tid sid newText = (db, false)) ∧
      (∀ (pre : List FusedSegment) (s : FusedSegment) (post : List FusedSegment),
        t.segments = pre ++ s :: post → (∀ x ∈ pre, x.id ≠ sid) → s.id = sid →
        update_transcript_segment hashFn db tid sid newText =
          (db.map (fun r =>
            if r.id == tid then
              { r with
                data := { t with segments := pre ++ { s with text := newText } :: post }
                hash := hashFn { t with segments := pre ++ { s with text := newText } :: post } }
            else r), true))) := by
  refine ⟨fun h => ?_, fun h => ?_,
    fun t ht => ⟨fun hnone => ?_, fun pre s post hsegs hpre hs => ?_⟩⟩
  · simp [update_transcript_segment, get_transcript, h]
  · simp [update_transcript_segment, h]
  · simp [update_transcript_segment, ht,
      update_segment_text_not_found sid newText t.segments hnone]
  · simp only [update_transcript_segment, ht]
    rw [hsegs, update_segment_text_first_match sid newText pre s post hpre hs]
    simp

/-- Witness for C9's success clause: editing segment "seg2" of a two-segment
transcript rewrites only that segment's text. -/
theorem update_transcript_segment_frame_witness :
    update_transcript_segment (fun _ => "H")
      [⟨"t1", ⟨"t1", [⟨"seg1", "Judge", "a", 0, 1, 1⟩,
                      ⟨"seg2", "Clerk", "b", 1, 2, 1⟩], "m", none, "success"⟩, "H"⟩]
      "t1" "seg2" "b2" =
    ([⟨"t1", ⟨"t1", [⟨"seg1", "Judge", "a", 0, 1, 1⟩,
                     ⟨"seg2", "Clerk", "b2", 1, 2, 1⟩], "m", none, "success"⟩, "H"⟩],
     true) := by
  have h := ((update_transcript_segment_frame (fun _ => "H")
      [⟨"t1", ⟨"t1", [⟨"seg1", "Judge", "a", 0, 1, 1⟩,
                      ⟨"seg2", "Clerk", "b", 1, 2, 1⟩], "m", none, "success"⟩, "H"⟩]
      "t1" "seg2" "b2").2.2
    ⟨"t1", [⟨"seg1", "Judge", "a", 0, 1, 1⟩, ⟨"seg2", "Clerk", "b", 1, 2, 1⟩],
     "m", none, "success"⟩ rfl).2
    [⟨"seg1", "Judge", "a", 0, 1, 1⟩] ⟨"seg2", "Clerk", "b", 1, 2, 1⟩ []
    rfl (by decide) rfl
  rw [h]
  rfl

end CourtTranscription
